import Mathlib

/-!
Verification of the task-tracker HTTP service (`main.go`).

The Go source is shallowly embedded here:

* `Task`, the task record, with the 64-bit Go `int` identifier embedded as
  `Int` (arithmetic that can overflow goes through `wrap64`, the two's
  complement wrap-around of Go's signed 64-bit integers);
* JSON documents as an inductive `Json` tree; `encodeTask` mirrors
  `json.Marshal` of the `Task` struct (struct field order `id, title,
  completed`); `decodeTask` mirrors `json.Unmarshal` into a `Task`
  (case-insensitive key match, absent fields keep zero values, `null`
  leaves a field untouched, type mismatches and out-of-range numbers fail);
* `pathClean` and `atoi` mirror Go's `path.Clean` and `strconv.Atoi`
  (string processing is done on the underlying character lists, matching
  Go's byte-level loops), and `ParseTaskID` mirrors the function of the
  same name;
* `Tasks` mirrors the HTTP handler: method dispatch, then the GET / POST /
  PUT / DELETE branches, each acting on a `StoreState` (the globals
  `tasks` and `lastID`); a request body is `Option Json`, `none` standing
  for bytes that do not parse as JSON;
* `loadTasks` / `LoadTasksFromFile` / `SaveTasksToFile` mirror the
  persistence functions, with the file system embedded as an association
  list from file names to JSON documents and the possible failure of the
  backup `os.Rename` passed in as a boolean.
-/

namespace TaskTracker

/-- A JSON document, at the level of the parsed tree. -/
inductive Json where
  | null : Json
  | bool : Bool → Json
  | num : Int → Json
  | str : String → Json
  | arr : List Json → Json
  | obj : List (String × Json) → Json

/-- The `Task` struct of `main.go`: `ID int`, `Title string`, `Completed bool`,
with JSON tags `id`, `title`, `completed`. Go's `int` is 64-bit here. -/
structure Task where
  ID : Int
  Title : String
  Completed : Bool
deriving DecidableEq

/-- The mutable globals of `main.go`: the slice `tasks` and the counter
`lastID`. -/
structure StoreState where
  tasks : List Task
  lastID : Int
deriving DecidableEq

/-- Two's complement wrap-around to the signed 64-bit range, the semantics of
Go `int` arithmetic on a 64-bit platform (Go defines signed overflow to
wrap). -/
def wrap64 (x : Int) : Int :=
  (x + 2 ^ 63) % 2 ^ 64 - 2 ^ 63

/-- ASCII decimal digit test. -/
def isDigit (c : Char) : Bool :=
  '0' ≤ c && c ≤ '9'

/-- Digit accumulation of `strconv.Atoi`: left-to-right decimal value. -/
def digitsVal (cs : List Char) : Nat :=
  cs.foldl (fun acc c => acc * 10 + (c.toNat - 48)) 0

/-- Go `strconv.Atoi` on the characters of the argument: an optional `+`/`-`
sign followed by at least one decimal digit, failing on anything else and on
values outside the signed 64-bit range (Go returns `ErrRange` there). -/
def atoiChars : List Char → Option Int
  | [] => none
  | c :: rest =>
    let (neg, digits) :=
      if c = '-' then (true, rest)
      else if c = '+' then (false, rest)
      else (false, c :: rest)
    if digits.isEmpty then none
    else if !(digits.all isDigit) then none
    else
      let v : Int := if neg then -(digitsVal digits : Int) else (digitsVal digits : Int)
      if -(2 ^ 63) ≤ v && v < 2 ^ 63 then some v else none

/-- Go `strconv.Atoi`. -/
def atoi (s : String) : Option Int :=
  atoiChars s.data

/-- Go `strings.Split` on a single separator character. -/
def splitOnChar (sep : Char) : List Char → List (List Char)
  | [] => [[]]
  | c :: rest =>
    match splitOnChar sep rest with
    | [] => [[]]
    | g :: gs => if c = sep then [] :: g :: gs else (c :: g) :: gs

/-- Join path segments back with `/` separators. -/
def joinSlash : List (List Char) → List Char
  | [] => []
  | [g] => g
  | g :: gs => g ++ '/' :: joinSlash gs

/-- One pass of Go `path.Clean` over the slash-separated segments: drop empty
and `.` segments, let `..` cancel the preceding segment (at the root of a
rooted path a `..` is dropped; in a relative path an uncancellable `..` is
kept). The accumulator holds the kept segments in reverse. -/
def cleanSegs (rooted : Bool) : List (List Char) → List (List Char) → List (List Char)
  | stack, [] => stack.reverse
  | stack, s :: rest =>
    if s = [] || s = ['.'] then cleanSegs rooted stack rest
    else if s = ['.', '.'] then
      match stack with
      | t :: stack' =>
        if t = ['.', '.'] then cleanSegs rooted (s :: t :: stack') rest
        else cleanSegs rooted stack' rest
      | [] =>
        if rooted then cleanSegs rooted [] rest
        else cleanSegs rooted [s] rest
    else cleanSegs rooted (s :: stack) rest

/-- Go `path.Clean`: lexically canonicalize a slash-separated path — collapse
repeated slashes, drop `.` elements, resolve `..` elements, return `.` for an
empty result, and keep a leading slash of a rooted path. -/
def pathClean (p : String) : String :=
  match p.data with
  | [] => "."
  | c :: cs =>
    let rooted := c = '/'
    let segs := cleanSegs rooted [] (splitOnChar '/' (c :: cs))
    let joined := joinSlash segs
    if rooted then ⟨'/' :: joined⟩
    else if joined = [] then "." else ⟨joined⟩

/-- The function `ParseTaskID` of `main.go`: clean the URL path, split on `/`, require
exactly three parts (`"" / "tasks" / id`), and convert the final part with
`strconv.Atoi`; wrong shape gives `"Invalid URL"`, a failed conversion gives
`"Invalid Task ID"`. -/
def ParseTaskID (urlPath : String) : Except String Int :=
  let parts := splitOnChar '/' (pathClean urlPath).data
  if parts.length ≠ 3 then
    .error "Invalid URL"
  else
    match atoiChars (parts.getLastD []) with
    | none => .error "Invalid Task ID"
    | some n => .ok n

example : pathClean "/tasks/5/" = "/tasks/5" := by decide
example : pathClean "" = "." := by decide
example : pathClean "/" = "/" := by decide
example : pathClean "//tasks//./5" = "/tasks/5" := by decide
example : pathClean "/tasks/x/../5" = "/tasks/5" := by decide
example : pathClean "a/../.." = ".." := by decide
example : ParseTaskID "/tasks/5" = .ok 5 := rfl
example : ParseTaskID "/tasks/-5" = .ok (-5) := rfl
example : ParseTaskID "/tasks/abc" = .error "Invalid Task ID" := rfl
example : ParseTaskID "/tasks" = .error "Invalid URL" := rfl
example : ParseTaskID "/tasks/1/2" = .error "Invalid URL" := rfl
example : atoi "+7" = some 7 := rfl
example : atoi "" = none := rfl
example : atoi "9223372036854775808" = none := rfl
example : atoi "9223372036854775807" = some 9223372036854775807 := rfl

/-- ASCII lower-casing of one character, as Go's case-insensitive JSON field
match performs on the tag and key (the tags here are pure ASCII). -/
def lowerChar (c : Char) : Char :=
  if 'A' ≤ c && c ≤ 'Z' then Char.ofNat (c.toNat + 32) else c

/-- Case-insensitive string comparison (Go's JSON key-to-field matching: an
exact match is preferred but any case-insensitive match hits the field; for
the all-lowercase distinct tags of `Task` the two coincide). -/
def eqFold (a b : String) : Bool :=
  a.data.map lowerChar == b.data.map lowerChar

/-- Embedding of `json.Marshal` of one `Task`: an object with the fields in struct order
`id`, `title`, `completed`. -/
def encodeTask (t : Task) : Json :=
  .obj [("id", .num t.ID), ("title", .str t.Title), ("completed", .bool t.Completed)]

/-- Embedding of `json.Marshal` of the task slice. -/
def encodeTasks (ts : List Task) : Json :=
  .arr (ts.map encodeTask)

/-- Embedding of `json.Unmarshal` of one object member into the `Task` being built: a key
matching `id` / `title` / `completed` sets that field when the value has the
field's type, a JSON `null` leaves the field as is, a type mismatch or an
`id` outside the signed 64-bit range fails, and unknown keys are ignored. -/
def decodeField (t : Task) (kv : String × Json) : Except String Task :=
  if eqFold kv.1 "id" then
    match kv.2 with
    | .num n =>
      if -(2 ^ 63) ≤ n && n < 2 ^ 63 then .ok { t with ID := n }
      else .error "cannot unmarshal number into field id"
    | .null => .ok t
    | _ => .error "cannot unmarshal into field id"
  else if eqFold kv.1 "title" then
    match kv.2 with
    | .str v => .ok { t with Title := v }
    | .null => .ok t
    | _ => .error "cannot unmarshal into field title"
  else if eqFold kv.1 "completed" then
    match kv.2 with
    | .bool b => .ok { t with Completed := b }
    | .null => .ok t
    | _ => .error "cannot unmarshal into field completed"
  else .ok t

/-- Embedding of `json.Unmarshal` of a document into a `Task`: an object is folded member
by member over the zero value (absent fields keep their zero values, later
duplicate keys win), a JSON `null` leaves the zero value, and any other
document shape fails. -/
def decodeTask (j : Json) : Except String Task :=
  match j with
  | .obj fields => fields.foldlM decodeField { ID := 0, Title := "", Completed := false }
  | .null => .ok { ID := 0, Title := "", Completed := false }
  | _ => .error "cannot unmarshal into Task"

/-- Element-wise decoding of a JSON array into tasks, failing at the first
element that does not decode. -/
def decodeTaskList : List Json → Except String (List Task)
  | [] => .ok []
  | j :: rest =>
    match decodeTask j with
    | .error e => .error e
    | .ok t =>
      match decodeTaskList rest with
      | .error e => .error e
      | .ok ts => .ok (t :: ts)

/-- Embedding of `json.Decode` of a document into the `[]Task` slice: a JSON array decoded
element-wise, `null` giving the nil slice, anything else failing. -/
def decodeTasks (j : Json) : Except String (List Task) :=
  match j with
  | .arr xs => decodeTaskList xs
  | .null => .ok []
  | _ => .error "cannot unmarshal into task slice"

/-- Lines 146–149 of `main.go` (the POST success path): `lastID++`,
`newTask.ID = lastID`, `tasks = append(tasks, newTask)`; the client-supplied
`ID` of the decoded body is overwritten. -/
def storeCreate (s : StoreState) (newTask : Task) : StoreState × Task :=
  let newID := wrap64 (s.lastID + 1)
  let created := { newTask with ID := newID }
  ({ tasks := s.tasks ++ [created], lastID := newID }, created)

/-- The PUT search loop of `main.go`: walk the slice, and at the first task
whose `ID` matches, set `Title` and `Completed` in place and stop (`break`);
`none` when no task matches (`taskFound` stays false). -/
def updateFirst (ID : Int) (title : String) (completed : Bool) : List Task → Option (List Task × Task)
  | [] => none
  | t :: ts =>
    if t.ID = ID then
      let u : Task := { t with Title := title, Completed := completed }
      some (u :: ts, u)
    else
      match updateFirst ID title completed ts with
      | none => none
      | some (ts', u) => some (t :: ts', u)

/-- The DELETE search loop of `main.go`: remove the first task whose `ID`
matches, keeping the relative order of the rest (`append(tasks[:i],
tasks[i+1:]...)`); `none` when no task matches. -/
def deleteFirst (ID : Int) : List Task → Option (List Task)
  | [] => none
  | t :: ts =>
    if t.ID = ID then some ts
    else
      match deleteFirst ID ts with
      | none => none
      | some ts' => some (t :: ts')

/-- An HTTP response as the handler produces it: a status code and a JSON
body. -/
structure HttpResponse where
  status : Nat
  body : Json

/-- The function `writeJsonError` of `main.go`: the given status with body
`{"error": message}`. -/
def writeJsonError (status : Nat) (message : String) : HttpResponse :=
  { status := status, body := .obj [("error", .str message)] }

/-- The `Tasks` handler of `main.go`. The request is its method, its URL
path, and its body (`none` for a body that is not well-formed JSON); the
handler reads and may replace the global state, and produces a response.
Method dispatch, the validation order inside each branch (for PUT: URL first,
then body, then title), and every status code and message are those of the
source. -/
def Tasks (method : String) (urlPath : String) (body : Option Json) (s : StoreState) :
    HttpResponse × StoreState :=
  if method ≠ "GET" && method ≠ "POST" && method ≠ "PUT" && method ≠ "DELETE" then
    (writeJsonError 405 "Method Not Allowed", s)
  else if method = "GET" then
    ({ status := 200, body := encodeTasks s.tasks }, s)
  else if method = "POST" then
    match body with
    | none => (writeJsonError 400 "Invalid JSON format", s)
    | some j =>
      match decodeTask j with
      | .error _ => (writeJsonError 400 "Invalid JSON format", s)
      | .ok newTask =>
        if newTask.Title = "" then
          (writeJsonError 400 "Task title cannot be empty", s)
        else
          let r := storeCreate s newTask
          ({ status := 201, body := encodeTask r.2 }, r.1)
  else if method = "PUT" then
    match ParseTaskID urlPath with
    | .error e => (writeJsonError 400 e, s)
    | .ok ID =>
      match body with
      | none => (writeJsonError 400 "Invalid JSON format", s)
      | some j =>
        match decodeTask j with
        | .error _ => (writeJsonError 400 "Invalid JSON format", s)
        | .ok newTask =>
          if newTask.Title = "" then
            (writeJsonError 400 "Task title cannot be empty", s)
          else
            match updateFirst ID newTask.Title newTask.Completed s.tasks with
            | none => (writeJsonError 404 ("No task found with ID " ++ toString ID), s)
            | some (ts', u) => ({ status := 200, body := encodeTask u }, { s with tasks := ts' })
  else
    match ParseTaskID urlPath with
    | .error e => (writeJsonError 400 e, s)
    | .ok ID =>
      match deleteFirst ID s.tasks with
      | none => (writeJsonError 404 ("No task found with ID " ++ toString ID), s)
      | some ts' =>
        ({ status := 200,
           body := .obj [("status", .str "success"), ("message", .str "Task deleted")] },
         { s with tasks := ts' })

/-- The `lastID` recomputation loop of `LoadTasksFromFile` (lines 280–285):
`lastID = 0`, then for each task, `if task.ID > lastID { lastID = task.ID }`. -/
def computeLastID (ts : List Task) : Int :=
  ts.foldl (fun acc t => if t.ID > acc then t.ID else acc) 0

/-- The state-level content of `LoadTasksFromFile`: decode the file content
into the task slice and recompute `lastID`; on a decode failure the previous
state is kept (the caller receives the error). -/
def loadTasks (content : Json) : Except String StoreState :=
  match decodeTasks content with
  | .error e => .error e
  | .ok ts => .ok { tasks := ts, lastID := computeLastID ts }

/-- The file system seen by `Load`/`Save`: file names bound to the JSON
documents they hold. -/
abbrev FileSys := List (String × Json)

/-- Content of a named file, `none` when the file does not exist (the
`os.Open` / `os.Stat` failure case). -/
def fsLookup : FileSys → String → Option Json
  | [], _ => none
  | (n, c) :: rest, name => if n = name then some c else fsLookup rest name

/-- Remove a named file. -/
def fsRemove (fs : FileSys) (name : String) : FileSys :=
  fs.filter (fun kv => !(kv.1 == name))

/-- Create or overwrite a named file (`os.Create` / `os.Rename` target). -/
def fsInsert (fs : FileSys) (name : String) (content : Json) : FileSys :=
  (name, content) :: fsRemove fs name

/-- The function `LoadTasksFromFile` of `main.go`: open the file (an absent file is the
error case, leaving the state untouched at the caller), decode the task
slice, recompute `lastID`. -/
def LoadTasksFromFile (fs : FileSys) (filename : String) : Except String StoreState :=
  match fsLookup fs filename with
  | none => .error "open failed"
  | some content => loadTasks content

/-- The function `SaveTasksToFile` of `main.go`: when a file exists at `filename`, rename
it to `filename + ".bak"` — the rename is best-effort, `renameOk = false`
standing for an `os.Rename` failure, which is logged and does not abort —
then create/overwrite `filename` with the marshalled task slice. -/
def SaveTasksToFile (fs : FileSys) (filename : String) (renameOk : Bool) (s : StoreState) :
    FileSys :=
  let backupFilename := filename ++ ".bak"
  let fs1 :=
    match fsLookup fs filename with
    | some oldContent =>
      if renameOk then fsInsert (fsRemove fs filename) backupFilename oldContent
      else fs
    | none => fs
  fsInsert fs1 filename (encodeTasks s.tasks)

/-- A sequence of successful Create calls (the store-level POST success path
applied request by request), returning the final state and the identifiers
assigned, in call order. -/
def createAll (s : StoreState) : List Task → StoreState × List Int
  | [] => (s, [])
  | t :: rest =>
    let r := storeCreate s t
    let r2 := createAll r.1 rest
    (r2.1, r.2.ID :: r2.2)

/-- The store invariant of the spec: task identifiers are pairwise distinct
and the counter is at least every identifier in the collection. -/
def StoreInv (s : StoreState) : Prop :=
  (s.tasks.map Task.ID).Nodup ∧ ∀ t ∈ s.tasks, t.ID ≤ s.lastID

example :
    Tasks "GET" "/tasks" none ⟨[⟨1, "a", true⟩], 1⟩ =
      ({ status := 200, body := .arr [.obj [("id", .num 1), ("title", .str "a"), ("completed", .bool true)]] },
       ⟨[⟨1, "a", true⟩], 1⟩) := rfl

example :
    (Tasks "POST" "/tasks" (some (.obj [("title", .str "Test Task"), ("completed", .bool false)]))
      ⟨[⟨1, "Clean the carpet", false⟩, ⟨2, "Pick up the groceries", false⟩,
        ⟨123, "Doctor's appointment", true⟩], 123⟩).1 =
      { status := 201,
        body := .obj [("id", .num 124), ("title", .str "Test Task"), ("completed", .bool false)] } := rfl

example :
    (Tasks "DELETE" "/tasks/7" none ⟨[⟨1, "a", true⟩], 1⟩).1 =
      writeJsonError 404 "No task found with ID 7" := rfl

example :
    (Tasks "PUT" "/tasks/1" (some (.obj [("title", .str "Updated Task"), ("completed", .bool true)]))
      ⟨[⟨1, "a", false⟩], 1⟩).1 =
      { status := 200,
        body := .obj [("id", .num 1), ("title", .str "Updated Task"), ("completed", .bool true)] } := rfl

example :
    loadTasks (.arr [.obj [("id", .num 3), ("title", .str "x"), ("completed", .bool false)]]) =
      .ok ⟨[⟨3, "x", false⟩], 3⟩ := rfl

theorem tasks_post_eq (p : String) (body : Option Json) (s : StoreState) :
    Tasks "POST" p body s =
      (match body with
       | none => (writeJsonError 400 "Invalid JSON format", s)
       | some j =>
         match decodeTask j with
         | .error _ => (writeJsonError 400 "Invalid JSON format", s)
         | .ok newTask =>
           if newTask.Title = "" then (writeJsonError 400 "Task title cannot be empty", s)
           else
             let r := storeCreate s newTask
             ({ status := 201, body := encodeTask r.2 }, r.1)) := rfl

theorem tasks_put_eq (p : String) (body : Option Json) (s : StoreState) :
    Tasks "PUT" p body s =
      (match ParseTaskID p with
       | .error e => (writeJsonError 400 e, s)
       | .ok ID =>
         match body with
         | none => (writeJsonError 400 "Invalid JSON format", s)
         | some j =>
           match decodeTask j with
           | .error _ => (writeJsonError 400 "Invalid JSON format", s)
           | .ok newTask =>
             if newTask.Title = "" then (writeJsonError 400 "Task title cannot be empty", s)
             else
               match updateFirst ID newTask.Title newTask.Completed s.tasks with
               | none => (writeJsonError 404 ("No task found with ID " ++ toString ID), s)
               | some (ts', u) =>
                 ({ status := 200, body := encodeTask u }, { s with tasks := ts' })) := rfl

theorem tasks_delete_eq (p : String) (body : Option Json) (s : StoreState) :
    Tasks "DELETE" p body s =
      (match ParseTaskID p with
       | .error e => (writeJsonError 400 e, s)
       | .ok ID =>
         match deleteFirst ID s.tasks with
         | none => (writeJsonError 404 ("No task found with ID " ++ toString ID), s)
         | some ts' =>
           ({ status := 200,
              body := .obj [("status", .str "success"), ("message", .str "Task deleted")] },
            { s with tasks := ts' })) := rfl

theorem updateFirst_eq_none (ID : Int) (title : String) (completed : Bool)
    (ts : List Task) (h : ∀ u ∈ ts, u.ID ≠ ID) :
    updateFirst ID title completed ts = none := by
  induction ts with
  | nil => rfl
  | cons t ts ih =>
    unfold updateFirst
    rw [if_neg (h t (List.mem_cons_self t ts)), ih fun u hu => h u (List.mem_cons_of_mem t hu)]

theorem deleteFirst_eq_none (ID : Int) (ts : List Task) (h : ∀ u ∈ ts, u.ID ≠ ID) :
    deleteFirst ID ts = none := by
  induction ts with
  | nil => rfl
  | cons t ts ih =>
    unfold deleteFirst
    rw [if_neg (h t (List.mem_cons_self t ts)), ih fun u hu => h u (List.mem_cons_of_mem t hu)]

/-- C10: the handler never inspects the URL path on GET and POST: a GET to
any path routed to it (such as /tasks/123 or /tasks/xyz) answers 200 with
the full task list, and a POST to any such path behaves exactly as a POST to
/tasks (it creates a task rather than rejecting the route). -/
theorem get_post_path_independent :
    (∀ p b s, Tasks "GET" p b s = ({ status := 200, body := encodeTasks s.tasks }, s)) ∧
    (∀ p q b s, Tasks "POST" p b s = Tasks "POST" q b s) :=
  ⟨fun _ _ _ => rfl, fun _ _ _ _ => rfl⟩

/-- C1: a create request with a well-formed JSON body and non-empty title
makes the store increment the identifier counter (the 64-bit increment of
`lastID`), assign the new counter value as the task's identifier — the id in
the body is overwritten — and append the task at the end of the collection,
and the handler answers 201 with the created task; in the spec's scenario,
the collection loaded from [{1,"Clean the carpet",false},{2,"Pick up the
groceries",false},{123,"Doctor's appointment",true}] answers POST
{"title":"Test Task","completed":false} with 201
{"id":124,"title":"Test Task","completed":false}. -/
theorem post_creates_task (p : String) (j : Json) (t : Task) (s : StoreState)
    (hdec : decodeTask j = .ok t) (ht : t.Title ≠ "") :
    Tasks "POST" p (some j) s =
      ({ status := 201, body := encodeTask { t with ID := wrap64 (s.lastID + 1) } },
       { tasks := s.tasks ++ [{ t with ID := wrap64 (s.lastID + 1) }],
         lastID := wrap64 (s.lastID + 1) }) ∧
    loadTasks (.arr
        [.obj [("id", .num 1), ("title", .str "Clean the carpet"), ("completed", .bool false)],
         .obj [("id", .num 2), ("title", .str "Pick up the groceries"), ("completed", .bool false)],
         .obj [("id", .num 123), ("title", .str "Doctor's appointment"), ("completed", .bool true)]]) =
      .ok ⟨[⟨1, "Clean the carpet", false⟩, ⟨2, "Pick up the groceries", false⟩,
            ⟨123, "Doctor's appointment", true⟩], 123⟩ ∧
    Tasks "POST" "/tasks" (some (.obj [("title", .str "Test Task"), ("completed", .bool false)]))
        ⟨[⟨1, "Clean the carpet", false⟩, ⟨2, "Pick up the groceries", false⟩,
          ⟨123, "Doctor's appointment", true⟩], 123⟩ =
      ({ status := 201,
         body := .obj [("id", .num 124), ("title", .str "Test Task"), ("completed", .bool false)] },
       ⟨[⟨1, "Clean the carpet", false⟩, ⟨2, "Pick up the groceries", false⟩,
         ⟨123, "Doctor's appointment", true⟩, ⟨124, "Test Task", false⟩], 124⟩) := by
  refine ⟨?_, rfl, rfl⟩
  simp only [tasks_post_eq, hdec]
  rw [if_neg ht]
  rfl

theorem post_creates_task_witness :
    decodeTask (.obj [("id", .num 9), ("title", .str "w"), ("completed", .bool true)]) =
      .ok ⟨9, "w", true⟩ ∧
    ("w" : String) ≠ "" ∧
    Tasks "POST" "/tasks" (some (.obj [("id", .num 9), ("title", .str "w"), ("completed", .bool true)]))
        ⟨[], 0⟩ =
      ({ status := 201, body := encodeTask ⟨1, "w", true⟩ }, ⟨[⟨1, "w", true⟩], 1⟩) :=
  ⟨rfl, by decide,
   ((post_creates_task "/tasks" (.obj [("id", .num 9), ("title", .str "w"), ("completed", .bool true)])
      ⟨9, "w", true⟩ ⟨[], 0⟩ rfl (by decide)).1.trans rfl)⟩

/-- C3 counterexample: a POST whose title is the single space " "
(whitespace-only) is accepted — the handler answers 201 and appends the
task — instead of answering 400 "Task title cannot be empty" and leaving the
collection unchanged, so the claim fails for whitespace-only titles. -/
theorem whitespace_title_accepted :
    (Tasks "POST" "/tasks" (some (.obj [("title", .str " "), ("completed", .bool false)]))
        ⟨[], 0⟩).1.status = 201 ∧
    (Tasks "POST" "/tasks" (some (.obj [("title", .str " "), ("completed", .bool false)]))
        ⟨[], 0⟩).2 = ⟨[⟨1, " ", false⟩], 1⟩ :=
  ⟨rfl, rfl⟩

/-- C3 (amended): a create or update request whose decoded title is exactly
the empty string is answered 400 with the fixed message "Task title cannot
be empty" and the collection and counter are left unchanged; the code
compares the title against "" only, so whitespace-only titles are accepted,
and on update the identifier must parse from the URL first. -/
theorem empty_title_rejected (p : String) (j : Json) (t : Task) (s : StoreState) (ID : Int) :
    (decodeTask j = .ok t → t.Title = "" →
      Tasks "POST" p (some j) s = (writeJsonError 400 "Task title cannot be empty", s)) ∧
    (ParseTaskID p = .ok ID → decodeTask j = .ok t → t.Title = "" →
      Tasks "PUT" p (some j) s = (writeJsonError 400 "Task title cannot be empty", s)) := by
  constructor
  · intro hdec ht
    simp only [tasks_post_eq, hdec]
    rw [if_pos ht]
  · intro hp hdec ht
    simp only [tasks_put_eq, hp, hdec]
    rw [if_pos ht]

theorem empty_title_rejected_witness :
    decodeTask (.obj [("title", .str "")]) = .ok ⟨0, "", false⟩ ∧
    ParseTaskID "/tasks/1" = .ok 1 ∧
    Tasks "POST" "/tasks" (some (.obj [("title", .str "")])) ⟨[], 0⟩ =
      (writeJsonError 400 "Task title cannot be empty", ⟨[], 0⟩) ∧
    Tasks "PUT" "/tasks/1" (some (.obj [("title", .str "")])) ⟨[⟨1, "a", false⟩], 1⟩ =
      (writeJsonError 400 "Task title cannot be empty", ⟨[⟨1, "a", false⟩], 1⟩) :=
  ⟨rfl, rfl,
   (empty_title_rejected "/tasks" (.obj [("title", .str "")]) ⟨0, "", false⟩ ⟨[], 0⟩ 1).1 rfl rfl,
   (empty_title_rejected "/tasks/1" (.obj [("title", .str "")]) ⟨0, "", false⟩
      ⟨[⟨1, "a", false⟩], 1⟩ 1).2 rfl rfl rfl⟩

/-- C5: an update or delete whose identifier parses but is absent from the
collection is answered 404 with the one not-found message text
"No task found with ID {id}", identical across the two operations, and the
collection is not mutated. -/
theorem not_found_404 (p : String) (j : Json) (t : Task) (s : StoreState) (ID : Int)
    (hp : ParseTaskID p = .ok ID)
    (hdec : decodeTask j = .ok t) (ht : t.Title ≠ "")
    (habs : ∀ u ∈ s.tasks, u.ID ≠ ID) :
    Tasks "PUT" p (some j) s =
      (writeJsonError 404 ("No task found with ID " ++ toString ID), s) ∧
    Tasks "DELETE" p none s =
      (writeJsonError 404 ("No task found with ID " ++ toString ID), s) := by
  constructor
  · simp only [tasks_put_eq, hp, hdec]
    rw [if_neg ht, updateFirst_eq_none _ _ _ _ habs]
  · simp only [tasks_delete_eq, hp]
    rw [deleteFirst_eq_none _ _ habs]

theorem not_found_404_witness :
    ParseTaskID "/tasks/7" = .ok 7 ∧
    decodeTask (.obj [("title", .str "b")]) = .ok ⟨0, "b", false⟩ ∧
    ("b" : String) ≠ "" ∧
    (∀ u ∈ ([⟨1, "a", false⟩] : List Task), u.ID ≠ 7) ∧
    Tasks "PUT" "/tasks/7" (some (.obj [("title", .str "b")])) ⟨[⟨1, "a", false⟩], 1⟩ =
      (writeJsonError 404 ("No task found with ID " ++ toString (7 : Int)), ⟨[⟨1, "a", false⟩], 1⟩) ∧
    Tasks "DELETE" "/tasks/7" none ⟨[⟨1, "a", false⟩], 1⟩ =
      (writeJsonError 404 ("No task found with ID " ++ toString (7 : Int)), ⟨[⟨1, "a", false⟩], 1⟩) := by
  refine ⟨rfl, rfl, by decide, by decide, ?_, ?_⟩
  · exact (not_found_404 "/tasks/7" (.obj [("title", .str "b")]) ⟨0, "b", false⟩
      ⟨[⟨1, "a", false⟩], 1⟩ 7 rfl rfl (by decide) (by decide)).1
  · exact (not_found_404 "/tasks/7" (.obj [("title", .str "b")]) ⟨0, "b", false⟩
      ⟨[⟨1, "a", false⟩], 1⟩ 7 rfl rfl (by decide) (by decide)).2

/-- C4 counterexample: the final path segment is not restricted to positive
integers — the path "tasks" slash "-5" parses successfully to the identifier
-5 (strconv.Atoi accepts a leading sign), which the handler then looks up,
answering 404 rather than rejecting the segment with 400. -/
theorem parse_negative_id_accepted :
    ParseTaskID "/tasks/-5" = .ok (-5) ∧
    (Tasks "DELETE" "/tasks/-5" none ⟨[⟨1, "a", false⟩], 1⟩).1.status = 404 :=
  ⟨rfl, rfl⟩

/-- C4 (amended): for PUT and DELETE the identifier is parsed from the final
segment of the cleaned path as a signed integer — positivity is not checked,
a negative or zero segment parses successfully (and later yields 404): a
path that does not clean and split into exactly host + "tasks" + id segment
is answered 400 "Invalid URL"; a final segment rejected by strconv.Atoi
(non-numeric, or out of the 64-bit range) is answered 400 "Invalid Task ID"
— in both cases for either method and without touching the state. -/
theorem parse_task_id_routing (p : String) (b : Option Json) (s : StoreState) :
    ((splitOnChar '/' (pathClean p).data).length ≠ 3 →
      Tasks "PUT" p b s = (writeJsonError 400 "Invalid URL", s) ∧
      Tasks "DELETE" p b s = (writeJsonError 400 "Invalid URL", s)) ∧
    ((splitOnChar '/' (pathClean p).data).length = 3 →
      atoiChars ((splitOnChar '/' (pathClean p).data).getLastD []) = none →
      Tasks "PUT" p b s = (writeJsonError 400 "Invalid Task ID", s) ∧
      Tasks "DELETE" p b s = (writeJsonError 400 "Invalid Task ID", s)) ∧
    (∀ n, (splitOnChar '/' (pathClean p).data).length = 3 →
      atoiChars ((splitOnChar '/' (pathClean p).data).getLastD []) = some n →
      ParseTaskID p = .ok n) := by
  refine ⟨fun h => ?_, fun h3 hat => ?_, fun n h3 hat => ?_⟩
  · have hp : ParseTaskID p = .error "Invalid URL" := by
      simp only [ParseTaskID]
      rw [if_pos h]
    exact ⟨by simp only [tasks_put_eq, hp], by simp only [tasks_delete_eq, hp]⟩
  · have hp : ParseTaskID p = .error "Invalid Task ID" := by
      simp only [ParseTaskID]
      rw [if_neg (not_not_intro h3), hat]
    exact ⟨by simp only [tasks_put_eq, hp], by simp only [tasks_delete_eq, hp]⟩
  · simp only [ParseTaskID]
    rw [if_neg (not_not_intro h3), hat]

theorem parse_task_id_routing_witness :
    (splitOnChar '/' (pathClean "/tasks").data).length ≠ 3 ∧
    (splitOnChar '/' (pathClean "/tasks/abc").data).length = 3 ∧
    atoiChars ((splitOnChar '/' (pathClean "/tasks/abc").data).getLastD []) = none ∧
    (splitOnChar '/' (pathClean "/tasks/41").data).length = 3 ∧
    atoiChars ((splitOnChar '/' (pathClean "/tasks/41").data).getLastD []) = some 41 ∧
    Tasks "PUT" "/tasks" none ⟨[], 0⟩ = (writeJsonError 400 "Invalid URL", ⟨[], 0⟩) ∧
    Tasks "DELETE" "/tasks/abc" none ⟨[], 0⟩ = (writeJsonError 400 "Invalid Task ID", ⟨[], 0⟩) ∧
    ParseTaskID "/tasks/41" = .ok 41 := by
  refine ⟨by decide, by decide, rfl, by decide, rfl, ?_, ?_, ?_⟩
  · exact ((parse_task_id_routing "/tasks" none ⟨[], 0⟩).1 (by decide)).1
  · exact (((parse_task_id_routing "/tasks/abc" none ⟨[], 0⟩).2.1 (by decide)) rfl).2
  · exact ((parse_task_id_routing "/tasks/41" none ⟨[], 0⟩).2.2 41 (by decide)) rfl

theorem fsLookup_insert (fs : FileSys) (n : String) (c : Json) :
    fsLookup (fsInsert fs n c) n = some c := by
  simp [fsInsert, fsLookup]

theorem fsLookup_remove_ne (fs : FileSys) (name m : String) (h : m ≠ name) :
    fsLookup (fsRemove fs name) m = fsLookup fs m := by
  induction fs with
  | nil => rfl
  | cons kv rest ih =>
    obtain ⟨n, c⟩ := kv
    by_cases hk : n = name
    · have h1 : fsRemove ((n, c) :: rest) name = fsRemove rest name := by
        simp [fsRemove, List.filter_cons, hk]
      have h2 : n ≠ m := by rw [hk]; exact fun e => h e.symm
      rw [h1, ih]
      simp [fsLookup, h2]
    · have h1 : fsRemove ((n, c) :: rest) name = (n, c) :: fsRemove rest name := by
        simp [fsRemove, List.filter_cons, hk]
      rw [h1]
      by_cases hm : n = m
      · simp [fsLookup, hm]
      · simp [fsLookup, hm, ih]

theorem fsLookup_insert_ne (fs : FileSys) (n m : String) (c : Json) (h : m ≠ n) :
    fsLookup (fsInsert fs n c) m = fsLookup fs m := by
  have h2 : n ≠ m := fun e => h e.symm
  show fsLookup ((n, c) :: fsRemove fs n) m = _
  simp [fsLookup, h2, fsLookup_remove_ne fs n m h]

theorem append_bak_ne (fn : String) : fn ++ ".bak" ≠ fn := by
  intro h
  have hlen := congrArg String.length h
  rw [String.length_append] at hlen
  have h4 : (".bak" : String).length = 4 := rfl
  omega

/-- C7: when a file already exists at the save path it is renamed to
path + ".bak" before the new content is written, so a second save with
different in-memory content leaves the previously saved content verbatim in
the backup; a failure of the rename step (renameOk = false) is logged but
does not abort the save — the new content is still written. -/
theorem save_creates_backup (fs : FileSys) (fn : String) (rOk1 : Bool) (s1 s2 : StoreState) :
    fsLookup (SaveTasksToFile fs fn rOk1 s1) fn = some (encodeTasks s1.tasks) ∧
    fsLookup (SaveTasksToFile (SaveTasksToFile fs fn rOk1 s1) fn true s2) fn =
      some (encodeTasks s2.tasks) ∧
    fsLookup (SaveTasksToFile (SaveTasksToFile fs fn rOk1 s1) fn true s2) (fn ++ ".bak") =
      some (encodeTasks s1.tasks) := by
  have h1 : ∀ (g : FileSys) (rOk : Bool) (st : StoreState),
      fsLookup (SaveTasksToFile g fn rOk st) fn = some (encodeTasks st.tasks) := by
    intro g rOk st
    simp only [SaveTasksToFile]
    exact fsLookup_insert _ _ _
  refine ⟨h1 fs rOk1 s1, h1 _ true s2, ?_⟩
  generalize hF : SaveTasksToFile fs fn rOk1 s1 = F
  have hFl : fsLookup F fn = some (encodeTasks s1.tasks) := by rw [← hF]; exact h1 fs rOk1 s1
  simp only [SaveTasksToFile, hFl]
  rw [fsLookup_insert_ne _ _ _ _ (append_bak_ne fn)]
  exact fsLookup_insert _ _ _

theorem decodeField_id (t : Task) (n : Int) :
    decodeField t ("id", .num n) =
      (if -(2 ^ 63) ≤ n && n < 2 ^ 63 then .ok { t with ID := n }
       else .error "cannot unmarshal number into field id") := rfl

theorem decodeField_title (t : Task) (v : String) :
    decodeField t ("title", .str v) = .ok { t with Title := v } := rfl

theorem decodeField_completed (t : Task) (b : Bool) :
    decodeField t ("completed", .bool b) = .ok { t with Completed := b } := rfl

theorem decode_encode (t : Task) (h1 : -(2 ^ 63) ≤ t.ID) (h2 : t.ID < 2 ^ 63) :
    decodeTask (encodeTask t) = .ok t := by
  have hc : (decide (-(2 ^ 63) ≤ t.ID) && decide (t.ID < 2 ^ 63)) = true := by
    simp only [Bool.and_eq_true, decide_eq_true_eq]
    exact ⟨h1, h2⟩
  simp only [decodeTask, encodeTask, List.foldlM_cons, List.foldlM_nil,
    decodeField_id, decodeField_title, decodeField_completed, hc, if_true]
  rfl

theorem decodeTasks_encodeTasks (ts : List Task)
    (h : ∀ t ∈ ts, -(2 ^ 63) ≤ t.ID ∧ t.ID < 2 ^ 63) :
    decodeTasks (encodeTasks ts) = .ok ts := by
  induction ts with
  | nil => rfl
  | cons t rest ih =>
    have ht := h t (List.mem_cons_self t rest)
    have hr := ih fun u hu => h u (List.mem_cons_of_mem t hu)
    simp only [decodeTasks, encodeTasks, List.map_cons] at hr ⊢
    simp only [decodeTaskList, decode_encode t ht.1 ht.2, hr]

/-- C6: Save(path) followed by clearing the in-memory state and Load(path)
reproduces an identical task collection — the same tasks with the same id,
title and completed values in the same order (the counter is recomputed from
them); the identifiers are assumed to fit Go's 64-bit int, which every value
representable in the program does. -/
theorem save_load_roundtrip (fs : FileSys) (fn : String) (rOk : Bool) (s : StoreState)
    (h : ∀ t ∈ s.tasks, -(2 ^ 63) ≤ t.ID ∧ t.ID < 2 ^ 63) :
    LoadTasksFromFile (SaveTasksToFile fs fn rOk s) fn =
      .ok { tasks := s.tasks, lastID := computeLastID s.tasks } := by
  have hl : fsLookup (SaveTasksToFile fs fn rOk s) fn = some (encodeTasks s.tasks) := by
    simp only [SaveTasksToFile]
    exact fsLookup_insert _ _ _
  simp only [LoadTasksFromFile, hl, loadTasks, decodeTasks_encodeTasks s.tasks h]

theorem save_load_roundtrip_witness :
    (∀ t ∈ ([⟨1, "a", true⟩, ⟨2, "b", false⟩] : List Task), -(2 ^ 63) ≤ t.ID ∧ t.ID < 2 ^ 63) ∧
    LoadTasksFromFile
        (SaveTasksToFile [] "tasks.json" true ⟨[⟨1, "a", true⟩, ⟨2, "b", false⟩], 5⟩)
        "tasks.json" =
      .ok ⟨[⟨1, "a", true⟩, ⟨2, "b", false⟩], 2⟩ :=
  ⟨by decide,
   (save_load_roundtrip [] "tasks.json" true ⟨[⟨1, "a", true⟩, ⟨2, "b", false⟩], 5⟩
      (by decide)).trans rfl⟩

/-- C8 counterexample: loading a file whose single task has the negative
identifier -5 succeeds and sets the counter to 0, not to the maximum
observed id -5, because the recomputation folds the ids over the starting
value 0. -/
theorem load_negative_id_counter :
    loadTasks (.arr [.obj [("id", .num (-5)), ("title", .str "t"), ("completed", .bool false)]]) =
      .ok ⟨[⟨-5, "t", false⟩], 0⟩ ∧
    ((0 : Int) = -5 → False) :=
  ⟨rfl, by decide⟩

theorem foldl_step_ge_init (ts : List Task) (a : Int) :
    a ≤ ts.foldl (fun acc t => if t.ID > acc then t.ID else acc) a := by
  induction ts generalizing a with
  | nil => exact le_refl a
  | cons t rest ih =>
    simp only [List.foldl_cons]
    calc a ≤ (if t.ID > a then t.ID else a) := by split <;> omega
      _ ≤ _ := ih _

theorem foldl_step_ge_mem (ts : List Task) (a : Int) (t : Task) (ht : t ∈ ts) :
    t.ID ≤ ts.foldl (fun acc u => if u.ID > acc then u.ID else acc) a := by
  induction ts generalizing a with
  | nil => cases ht
  | cons u rest ih =>
    simp only [List.foldl_cons]
    rcases List.mem_cons.mp ht with h | h
    · subst h
      calc t.ID ≤ (if t.ID > a then t.ID else a) := by split <;> omega
        _ ≤ _ := foldl_step_ge_init rest _
    · exact ih _ h

theorem foldl_step_mem_or_init (ts : List Task) (a : Int) :
    ts.foldl (fun acc u => if u.ID > acc then u.ID else acc) a = a ∨
    ∃ t ∈ ts, ts.foldl (fun acc u => if u.ID > acc then u.ID else acc) a = t.ID := by
  induction ts generalizing a with
  | nil => exact Or.inl rfl
  | cons u rest ih =>
    simp only [List.foldl_cons]
    rcases ih (if u.ID > a then u.ID else a) with h | ⟨t, htmem, ht⟩
    · by_cases hu : u.ID > a
      · exact Or.inr ⟨u, List.mem_cons_self u rest, by rw [h, if_pos hu]⟩
      · exact Or.inl (by rw [h, if_neg hu])
    · exact Or.inr ⟨t, List.mem_cons_of_mem u htmem, ht⟩

/-- C8 (amended): after every successful load the counter is the fold of the
loaded identifiers over the starting value 0 — it is ≥ 0, ≥ every loaded id,
0 for an empty collection, and whenever some loaded id is ≥ 0 (in particular
for every file of positive ids, where it is the maximum id observed) it
equals an id present in the collection; when all loaded ids are negative it
is 0 rather than their maximum. -/
theorem load_recomputes_counter (content : Json) (s' : StoreState)
    (h : loadTasks content = .ok s') :
    0 ≤ s'.lastID ∧
    (∀ t ∈ s'.tasks, t.ID ≤ s'.lastID) ∧
    (s'.tasks = [] → s'.lastID = 0) ∧
    ((∃ t ∈ s'.tasks, 0 ≤ t.ID) → ∃ t ∈ s'.tasks, s'.lastID = t.ID) := by
  obtain ⟨ts, rfl⟩ : ∃ ts, s' = StoreState.mk ts (computeLastID ts) := by
    unfold loadTasks at h
    cases hd : decodeTasks content with
    | error e => rw [hd] at h; cases h
    | ok ts =>
      rw [hd] at h
      cases h
      exact ⟨ts, rfl⟩
  refine ⟨foldl_step_ge_init ts 0, fun t ht => foldl_step_ge_mem ts 0 t ht, fun he => ?_, ?_⟩
  · have h0 : ts = [] := he
    subst h0
    rfl
  · intro ⟨t, htm, ht0⟩
    rcases foldl_step_mem_or_init ts 0 with h0 | ⟨u, hum, hu⟩
    · refine ⟨t, htm, ?_⟩
      have hle := foldl_step_ge_mem ts 0 t htm
      show ts.foldl (fun acc t => if t.ID > acc then t.ID else acc) 0 = t.ID
      rw [h0] at hle ⊢
      omega
    · exact ⟨u, hum, hu⟩

theorem load_recomputes_counter_witness :
    loadTasks (.arr [.obj [("id", .num 3), ("title", .str "x"), ("completed", .bool false)],
                     .obj [("id", .num 1), ("title", .str "y"), ("completed", .bool true)]]) =
      .ok ⟨[⟨3, "x", false⟩, ⟨1, "y", true⟩], 3⟩ ∧
    (0 ≤ (3 : Int) ∧
     (∀ t ∈ ([⟨3, "x", false⟩, ⟨1, "y", true⟩] : List Task), t.ID ≤ (3 : Int)) ∧
     (([⟨3, "x", false⟩, ⟨1, "y", true⟩] : List Task) = [] → (3 : Int) = 0) ∧
     ((∃ t ∈ ([⟨3, "x", false⟩, ⟨1, "y", true⟩] : List Task), 0 ≤ t.ID) →
       ∃ t ∈ ([⟨3, "x", false⟩, ⟨1, "y", true⟩] : List Task), (3 : Int) = t.ID)) :=
  ⟨rfl,
   load_recomputes_counter
     (.arr [.obj [("id", .num 3), ("title", .str "x"), ("completed", .bool false)],
            .obj [("id", .num 1), ("title", .str "y"), ("completed", .bool true)]])
     ⟨[⟨3, "x", false⟩, ⟨1, "y", true⟩], 3⟩ rfl⟩

theorem wrap64_eq_self (x : Int) (h1 : -(2 ^ 63) ≤ x) (h2 : x < 2 ^ 63) : wrap64 x = x := by
  unfold wrap64
  omega

theorem wrap64_add_wrap64 (x y : Int) : wrap64 (wrap64 x + y) = wrap64 (x + y) := by
  unfold wrap64
  omega

theorem createAll_ids (reqs : List Task) (s : StoreState) :
    (createAll s reqs).2 =
      (List.range reqs.length).map (fun i : Nat => wrap64 (s.lastID + 1 + (i : Int))) := by
  induction reqs generalizing s with
  | nil => rfl
  | cons t rest ih =>
    have hstep : (createAll s (t :: rest)).2 =
        wrap64 (s.lastID + 1) ::
          (createAll { tasks := s.tasks ++ [{ t with ID := wrap64 (s.lastID + 1) }],
                       lastID := wrap64 (s.lastID + 1) } rest).2 := rfl
    rw [hstep, ih, List.length_cons, List.range_succ_eq_map, List.map_cons, List.map_map]
    refine congrArg₂ List.cons (by norm_num) ?_
    refine List.map_congr_left fun i _ => ?_
    show wrap64 (wrap64 (s.lastID + 1) + 1 + (i : Int)) = wrap64 (s.lastID + 1 + ((i : Nat) + 1 : Nat))
    rw [show wrap64 (s.lastID + 1) + 1 + (i : Int) = wrap64 (s.lastID + 1) + (1 + i) by ring,
      wrap64_add_wrap64]
    congr 1
    push_cast
    ring

theorem createAll_ids_no_overflow (s : StoreState) (reqs : List Task)
    (h1 : -(2 ^ 63) ≤ s.lastID) (h2 : s.lastID + reqs.length ≤ 2 ^ 63 - 1) :
    (createAll s reqs).2 =
      (List.range reqs.length).map (fun i : Nat => s.lastID + 1 + (i : Int)) := by
  rw [createAll_ids]
  refine List.map_congr_left fun i hi => ?_
  have hlt : (i : Int) < (reqs.length : Int) := by exact_mod_cast List.mem_range.mp hi
  exact wrap64_eq_self _ (by omega) (by omega)

theorem updateFirst_map_id (ID : Int) (title : String) (c : Bool) (ts : List Task) :
    ∀ ts' u, updateFirst ID title c ts = some (ts', u) → ts'.map Task.ID = ts.map Task.ID := by
  induction ts with
  | nil => intro ts' u h; cases h
  | cons t rest ih =>
    intro ts' u h
    unfold updateFirst at h
    by_cases ht : t.ID = ID
    · rw [if_pos ht] at h
      cases h
      rfl
    · rw [if_neg ht] at h
      cases hrec : updateFirst ID title c rest with
      | none => rw [hrec] at h; cases h
      | some pr =>
        obtain ⟨ts'', u'⟩ := pr
        rw [hrec] at h
        cases h
        rw [List.map_cons, List.map_cons, ih ts'' u hrec]

theorem deleteFirst_sublist (ID : Int) (ts : List Task) :
    ∀ ts', deleteFirst ID ts = some ts' → List.Sublist ts' ts := by
  induction ts with
  | nil => intro ts' h; cases h
  | cons t rest ih =>
    intro ts' h
    unfold deleteFirst at h
    by_cases ht : t.ID = ID
    · rw [if_pos ht] at h
      cases h
      exact List.sublist_cons_self t rest
    · rw [if_neg ht] at h
      cases hrec : deleteFirst ID rest with
      | none => rw [hrec] at h; cases h
      | some r =>
        rw [hrec] at h
        cases h
        exact (ih r hrec).cons₂ t

/-- C2 counterexample: identifier assignment is the wrap-around increment of
a 64-bit counter, so from the reachable state obtained by loading a file
whose task has id 9223372036854775806 (which fits Go's int64), two creates
assign 9223372036854775807 and then -9223372036854775808: the identifiers of
a create sequence are not strictly increasing in call order. -/
theorem counter_overflow_wraps :
    loadTasks (.arr [.obj [("id", .num 9223372036854775806), ("title", .str "t"),
        ("completed", .bool false)]]) =
      .ok ⟨[⟨9223372036854775806, "t", false⟩], 9223372036854775806⟩ ∧
    (createAll ⟨[⟨9223372036854775806, "t", false⟩], 9223372036854775806⟩
        [⟨0, "a", false⟩, ⟨0, "b", false⟩]).2 =
      [9223372036854775807, -9223372036854775808] ∧
    ¬ ([9223372036854775807, -9223372036854775808] : List Int).Pairwise (· < ·) := by
  refine ⟨rfl, by decide, fun h => ?_⟩
  have := (List.pairwise_cons.mp h).1 _ (List.mem_cons_self _ _)
  omega

/-- C2 (amended): as long as no create overflows the 64-bit counter (the
counter plus the number of creates stays below 2^63), the identifiers
assigned by a sequence of successful creates from any state are strictly
increasing in call order and pairwise distinct; moreover Create (absent
overflow), Update and Delete preserve the invariant that the collection's
identifiers are pairwise distinct and the counter is ≥ every identifier
present, and a successful Load establishes the counter bound always — and
the full invariant whenever the loaded identifiers are distinct (a load of a
file with duplicate or overflow-adjacent ids is the only way out of it). -/
theorem create_ids_increasing (s : StoreState) (reqs : List Task)
    (h1 : -(2 ^ 63) ≤ s.lastID) (h2 : s.lastID + reqs.length ≤ 2 ^ 63 - 1) :
    (createAll s reqs).2.Pairwise (· < ·) ∧
    (createAll s reqs).2.Nodup ∧
    (∀ t, StoreInv s → s.lastID < 2 ^ 63 - 1 → StoreInv (storeCreate s t).1) ∧
    (∀ ID title c ts' u, StoreInv s → updateFirst ID title c s.tasks = some (ts', u) →
      StoreInv { s with tasks := ts' }) ∧
    (∀ ID ts', StoreInv s → deleteFirst ID s.tasks = some ts' →
      StoreInv { s with tasks := ts' }) ∧
    (∀ content s', loadTasks content = .ok s' →
      (∀ t ∈ s'.tasks, t.ID ≤ s'.lastID) ∧
      ((s'.tasks.map Task.ID).Nodup → StoreInv s')) := by
  have hpw : (createAll s reqs).2.Pairwise (· < ·) := by
    rw [createAll_ids_no_overflow s reqs h1 h2]
    rw [List.pairwise_map]
    refine (List.pairwise_lt_range reqs.length).imp ?_
    intro a b hab
    have : (a : Int) < (b : Int) := by exact_mod_cast hab
    omega
  refine ⟨hpw, hpw.imp ne_of_lt, fun t hInv hlt => ?_, fun ID title c ts' u hInv hup => ?_,
    fun ID ts' hInv hdel => ?_, fun content s' hload => ?_⟩
  · obtain ⟨hnd, hle⟩ := hInv
    have hw : wrap64 (s.lastID + 1) = s.lastID + 1 :=
      wrap64_eq_self _ (by omega) (by omega)
    constructor
    · show ((s.tasks ++ [{ t with ID := wrap64 (s.lastID + 1) }]).map Task.ID).Nodup
      rw [List.map_append]
      refine hnd.append (List.nodup_singleton _) ?_
      intro a ha hb
      obtain ⟨u, hu, rfl⟩ := List.mem_map.mp ha
      have h1 := hle u hu
      have h2 : u.ID = wrap64 (s.lastID + 1) := by
        simpa using hb
      rw [hw] at h2
      omega
    · intro u hu
      rcases List.mem_append.mp hu with h | h
      · have := hle u h
        show u.ID ≤ wrap64 (s.lastID + 1)
        rw [hw]
        omega
      · have : u = { t with ID := wrap64 (s.lastID + 1) } := by simpa using h
        rw [this]
        exact le_refl _
  · obtain ⟨hnd, hle⟩ := hInv
    have hmap := updateFirst_map_id ID title c s.tasks ts' u hup
    constructor
    · show (ts'.map Task.ID).Nodup
      rw [hmap]
      exact hnd
    · intro v hv
      have : v.ID ∈ ts'.map Task.ID := List.mem_map_of_mem Task.ID hv
      rw [hmap] at this
      obtain ⟨w, hw, hwv⟩ := List.mem_map.mp this
      have := hle w hw
      show v.ID ≤ s.lastID
      omega
  · obtain ⟨hnd, hle⟩ := hInv
    have hsub := deleteFirst_sublist ID s.tasks ts' hdel
    exact ⟨hnd.sublist (hsub.map Task.ID), fun v hv => hle v (hsub.subset hv)⟩
  · obtain ⟨ts, rfl⟩ : ∃ ts, s' = StoreState.mk ts (computeLastID ts) := by
      unfold loadTasks at hload
      cases hd : decodeTasks content with
      | error e => rw [hd] at hload; cases hload
      | ok ts =>
        rw [hd] at hload
        cases hload
        exact ⟨ts, rfl⟩
    exact ⟨fun t ht => foldl_step_ge_mem ts 0 t ht,
      fun hnd => ⟨hnd, fun t ht => foldl_step_ge_mem ts 0 t ht⟩⟩

theorem create_ids_increasing_witness :
    (-(2 ^ 63) : Int) ≤ (0 : Int) ∧
    ((0 : Int) + (([⟨0, "a", false⟩, ⟨0, "b", true⟩] : List Task).length : Int) ≤ 2 ^ 63 - 1) ∧
    ((createAll ⟨[], 0⟩ [⟨0, "a", false⟩, ⟨0, "b", true⟩]).2.Pairwise (· < ·) ∧
     (createAll ⟨[], 0⟩ [⟨0, "a", false⟩, ⟨0, "b", true⟩]).2.Nodup ∧
     (∀ t, StoreInv ⟨[], 0⟩ → (0 : Int) < 2 ^ 63 - 1 →
       StoreInv (storeCreate ⟨[], 0⟩ t).1) ∧
     (∀ ID title c ts' u, StoreInv ⟨[], 0⟩ →
       updateFirst ID title c (StoreState.mk [] 0).tasks = some (ts', u) →
       StoreInv { StoreState.mk [] 0 with tasks := ts' }) ∧
     (∀ ID ts', StoreInv ⟨[], 0⟩ → deleteFirst ID (StoreState.mk [] 0).tasks = some ts' →
       StoreInv { StoreState.mk [] 0 with tasks := ts' }) ∧
     (∀ content s', loadTasks content = .ok s' →
       (∀ t ∈ s'.tasks, t.ID ≤ s'.lastID) ∧
       ((s'.tasks.map Task.ID).Nodup → StoreInv s'))) :=
  ⟨by norm_num, by norm_num,
   create_ids_increasing ⟨[], 0⟩ [⟨0, "a", false⟩, ⟨0, "b", true⟩] (by norm_num) (by norm_num)⟩

end TaskTracker
